import Mathlib

/-!
Verification development for the Foundry-Local repository
(src/foundry-hybrid/monitoring/dashboard.py and
src/foundry-hybrid/ai-copilot/foundry_copilot.py).

The dashboard code keeps a registry of connected websocket viewers
(self.connected_websockets), runs one asynchronous loop per connected
viewer that every 5 time units computes a metrics snapshot and sends it
to that viewer, and serves the snapshot on demand at GET /metrics.
We embed the JSON payloads, the snapshot computation, and a discrete-time
trace semantics of the whole dashboard process.

Modelling conventions:
- the wall clock (Python time.time and datetime.now, both read at the
  same idealized instant) is an explicit rational parameter t;
- Python float arithmetic is modelled over the rationals; an f-string
  that formats a number with a given precision and unit suffix is kept
  as the underlying rational plus the precision and unit (constructor
  J.fmt below), since no claim depends on decimal rendering;
- Python int() truncation is Rat.floor (all truncated quantities here
  are nonnegative, where the two agree).
-/

/-- JSON-like payload values produced by the dashboard and the copilot. -/
inductive J where
  | s (v : String)
  | i (v : Int)
  | fmt (v : ℚ) (prec : Nat) (unit : String)
  | arr (elems : List J)
  | obj (fields : List (String × J))

/-- Python float modulo (sign of the divisor, here always positive):
t % m = t - m * floor (t / m). -/
def pymod (t m : ℚ) : ℚ := t - m * (Rat.floor (t / m) : ℚ)

/-- Rendering of datetime.now().isoformat() at idealized instant t.
The claims only use that it is a function of t alone. -/
def isoformat (t : ℚ) : String := "1970-01-01T+" ++ toString t

/-- Embeds FoundryDashboard._infrastructure_metrics. -/
def infrastructure_metrics (t : ℚ) : J :=
  J.obj
    [ ("anvil_rpc_latency", J.fmt (2 + pymod t 5) 1 "ms")
    , ("container_memory_usage", J.fmt (21/10 + pymod t (1/2)) 1 "GB")
    , ("cpu_utilization", J.fmt (45 + pymod t 20) 0 "%")
    , ("disk_io", J.fmt (150 + pymod t 50) 0 "MB/s")
    , ("network_throughput", J.fmt (12/10 + pymod t (8/10)) 1 "GB/s")
    , ("uptime", J.s (toString (Rat.floor (pymod t 86400 / 3600)) ++ "h "
        ++ toString (Rat.floor (pymod t 3600 / 60)) ++ "m"))
    ]

/-- Embeds FoundryDashboard._development_metrics. -/
def development_metrics (t : ℚ) : J :=
  J.obj
    [ ("active_projects", J.i (15 + Rat.floor (pymod t 10)))
    , ("contracts_compiled", J.i (847 + Rat.floor (pymod t 100)))
    , ("tests_executed", J.i (2341 + Rat.floor (pymod t 200)))
    , ("deployments_today", J.i (23 + Rat.floor (pymod t 10)))
    , ("gas_optimizations", J.i (156 + Rat.floor (pymod t 50)))
    , ("avg_compilation_time", J.fmt (32/10 + pymod t 2) 1 "s")
    ]

/-- Embeds FoundryDashboard._ai_metrics. -/
def ai_metrics (t : ℚ) : J :=
  J.obj
    [ ("copilot_interactions", J.i (342 + Rat.floor (pymod t 50)))
    , ("security_scans", J.i (89 + Rat.floor (pymod t 20)))
    , ("code_suggestions", J.i (567 + Rat.floor (pymod t 100)))
    , ("cross_city_insights", J.i (23 + Rat.floor (pymod t 10)))
    , ("template_generations", J.i (34 + Rat.floor (pymod t 15)))
    , ("ai_model_status", J.s "active")
    , ("suggestion_acceptance_rate", J.fmt (70 + pymod t 20) 1 "%")
    ]

/-- Embeds FoundryDashboard._transport_metrics. -/
def transport_metrics (t : ℚ) : J :=
  J.obj
    [ ("connected_cities", J.i 3)
    , ("messages_sent", J.i (1234 + Rat.floor (pymod t 100)))
    , ("messages_received", J.i (987 + Rat.floor (pymod t 80)))
    , ("transport_latency", J.fmt (85 + pymod t 30) 0 "ms")
    , ("knowledge_sync_rate", J.s "99.9%")
    , ("active_collaborations", J.i (5 + Rat.floor (pymod t 3)))
    ]

/-- Embeds FoundryDashboard._integration_metrics. -/
def integration_metrics (t : ℚ) : J :=
  J.obj
    [ ("district_status", J.s "manufacturing_active")
    , ("cognitive_load", J.fmt (60 + pymod t 25) 0 "%")
    , ("innovation_index", J.fmt (42/10 + pymod t (8/10)) 1 "/5.0")
    , ("collaboration_efficiency", J.fmt (88 + pymod t 10) 0 "%")
    , ("knowledge_integration", J.s "optimal")
    ]

/-- Embeds the pure part of FoundryDashboard.collect_metrics: the payload
built at clock reading t (the dict literal at dashboard.py lines 63-70). -/
def collect_metrics (t : ℚ) : J :=
  J.obj
    [ ("timestamp", J.s (isoformat t))
    , ("infrastructure", infrastructure_metrics t)
    , ("development", development_metrics t)
    , ("ai_assistance", ai_metrics t)
    , ("neural_transport", transport_metrics t)
    , ("city_integration", integration_metrics t)
    ]

/-- Embeds FoundryCopilot._gas_analysis (foundry_copilot.py lines 133-146):
the body ignores the code argument and returns a fixed dict. -/
def gas_analysis (_code : String) : J :=
  J.obj
    [ ("estimated_gas", J.i 50000)
    , ("optimization_potential", J.s "15%")
    , ("suggestions", J.arr
        [ J.s "Use uint256 instead of smaller uints for gas efficiency"
        , J.s "Pack struct variables to minimize storage slots"
        , J.s "Consider using immutable variables where possible"
        ])
    ]

/-- Top-level field lookup in an object payload. -/
def lookupJ : J → String → Option J
  | J.obj fs, k => List.lookup k fs
  | _, _ => none

/-- True when payload p has field c whose value is a non-empty object. -/
def categoryNonempty (p : J) (c : String) : Bool :=
  match lookupJ p c with
  | some (J.obj (_ :: _)) => true
  | _ => false

/-- Top-level keys of an object payload. -/
def keys : J → List String
  | J.obj fs => fs.map Prod.fst
  | _ => []

/-- Two-level key structure of a payload: each top-level key paired with
the keys of its value. -/
def keyShape : J → List (String × List String)
  | J.obj fs => fs.map (fun p => (p.1, keys p.2))
  | _ => []

/-- A running per-connection websocket task (dashboard.py lines 40-53):
its registry handle and the next time its loop body will execute.
On accept the loop body runs immediately, so next starts at the connect
time; after each send the loop sleeps 5 time units. -/
structure Viewer where
  handle : Nat
  next : Nat
deriving DecidableEq, Repr

/-- Whole-process state of the dashboard. The fields metrics, alerts and
connected_websockets embed the attributes of FoundryDashboard set up in
its constructor; viewers holds the live per-connection tasks; sent is the
log of deliveries (time, handle, payload); time is the discrete clock and
nextH generates fresh handles (each accepted websocket is a fresh object).
connectedLog and removedLog are history variables recording every handle
ever registered and every handle removed (by disconnect or by eviction
after a failed send); they are written exactly where those events happen
and are read by no operation. -/
structure Sys where
  time : Nat
  nextH : Nat
  connected_websockets : List Nat
  viewers : List Viewer
  sent : List (Nat × Nat × J)
  metrics : J
  alerts : List J
  connectedLog : List Nat
  removedLog : List Nat

/-- Initial state: FoundryDashboard.__init__ sets metrics = {} (empty
dict), alerts = [], connected_websockets = []. -/
def initState : Sys :=
  { time := 0, nextH := 0, connected_websockets := [], viewers := [], sent := [], metrics := J.obj [], alerts := [], connectedLog := [], removedLog := [] }

/-- Embeds Python list.remove(x): removes the first occurrence of x, or
raises ValueError when x is absent (modelled as none). -/
def list_remove (l : List Nat) (x : Nat) : Option (List Nat) :=
  if x ∈ l then some (l.erase x) else none

/-- Snapshot at discrete-clock instant t. -/
def snap (t : Nat) : J := collect_metrics (t : ℚ)

/-- Embeds the method FoundryDashboard.collect_metrics as a state
operation: builds the payload at instant t, stores it in self.metrics and
returns it (dashboard.py lines 59-73). -/
def collect_metrics_op (t : Nat) (s : Sys) : Sys × J :=
  ({ s with metrics := snap t }, snap t)

/-- Embeds the endpoint GET /alerts (dashboard.py lines 55-57). -/
def get_alerts (s : Sys) : J := J.obj [("alerts", J.arr s.alerts)]

/-- A new websocket connection: websocket.accept() then
connected_websockets.append(websocket), and the per-connection loop
starts with an immediate send (next = current time). -/
def connectStep (s : Sys) : Sys :=
  { s with
    connected_websockets := s.connected_websockets ++ [s.nextH]
    viewers := s.viewers ++ [⟨s.nextH, s.time⟩]
    nextH := s.nextH + 1
    connectedLog := s.nextH :: s.connectedLog }

/-- A viewer disconnect event: the per-connection task ends and its
finally clause runs connected_websockets.remove(websocket)
(dashboard.py lines 52-53). In the running system the removed handle is
always present (it was appended on accept and removed once); on an
absent handle list_remove raises, which leaves the registry unchanged. -/
def disconnectStep (h : Nat) (s : Sys) : Sys :=
  match list_remove s.connected_websockets h with
  | some r =>
    { s with
      connected_websockets := r
      viewers := s.viewers.filter (fun v => !(v.handle == h))
      removedLog := h :: s.removedLog }
  | none => s

/-- The viewer tasks whose loop body runs in the current time unit. -/
def dueOf (s : Sys) : List Viewer :=
  s.viewers.filter (fun v => v.next == s.time)

/-- The handles of the due tasks whose send raises in the current time
unit (fail tells which handles the transport rejects). -/
def failedOf (fail : Nat → Bool) (s : Sys) : List Nat :=
  ((dueOf s).filter (fun v => fail v.handle)).map Viewer.handle

/-- One discrete time unit of the running process. Each per-connection
loop whose wakeup time is due runs its body (dashboard.py lines 45-49):
it calls collect_metrics (updating the metrics cache) and sends the
payload; a task whose send raises (fail of its handle) hits its finally
clause, removing its own handle from the registry (lines 50-53), while
every other task is unaffected. The tasks are independent and their
handles distinct in every reachable state, so the aggregate effect over
the time unit is expressed componentwise. -/
def advanceStep (fail : Nat → Bool) (s : Sys) : Sys :=
  { time := s.time + 1
    nextH := s.nextH
    connected_websockets :=
      s.connected_websockets.filter (fun h => !(decide (h ∈ failedOf fail s)))
    viewers :=
      (s.viewers.filter (fun v => !(decide (v.handle ∈ failedOf fail s)))).map
        (fun v => if v.next == s.time then { v with next := s.time + 5 } else v)
    sent := ((dueOf s).filter (fun v => !(fail v.handle))).map
      (fun v => (s.time, v.handle, snap s.time)) ++ s.sent
    metrics := if (dueOf s).isEmpty then s.metrics else snap s.time
    alerts := s.alerts
    connectedLog := s.connectedLog
    removedLog := failedOf fail s ++ s.removedLog }

/-- External events driving the dashboard process. -/
inductive Op where
  | connect
  | disconnect (h : Nat)
  | getMetrics
  | advance (fail : Nat → Bool)

/-- One event. getMetrics embeds the GET /metrics endpoint (dashboard.py
lines 36-38), which just calls collect_metrics at the current instant. -/
def step (s : Sys) : Op → Sys
  | Op.connect => connectStep s
  | Op.disconnect h => disconnectStep h s
  | Op.getMetrics => (collect_metrics_op s.time s).1
  | Op.advance fail => advanceStep fail s

/-- The state reached from the initial state by a sequence of events. -/
def run (ops : List Op) : Sys := ops.foldl step initState

/-- True when the log records a delivery to handle h at time t. -/
def sentAt (s : Sys) (t h : Nat) : Bool :=
  s.sent.any (fun e => e.1 == t && e.2.1 == h)

/-- Number of advance events in a list of events. -/
def advCount (ops : List Op) : Nat :=
  ops.countP (fun op => match op with | Op.advance _ => true | _ => false)

/-- The inductive invariant of reachable dashboard states: the registry
lists exactly the handles of the live tasks, without duplicates; every
handle ever seen is below the fresh-handle counter; removed handles were
connected; the registry holds exactly the connected-and-not-removed
handles; and every logged delivery went to a once-connected handle. -/
def SysInv (s : Sys) : Prop :=
  s.connected_websockets = s.viewers.map Viewer.handle ∧
  s.connected_websockets.Nodup ∧
  (∀ h ∈ s.connectedLog, h < s.nextH) ∧
  (∀ h ∈ s.removedLog, h ∈ s.connectedLog) ∧
  (∀ h, h ∈ s.connected_websockets ↔
    (h ∈ s.connectedLog ∧ h ∉ s.removedLog)) ∧
  (∀ e ∈ s.sent, e.2.1 ∈ s.connectedLog)

/-- Loop invariant for the per-connection push loop of one viewer with
handle h that connected at time t0: after k further time units during
which it neither disconnected nor failed, the viewer task is alive with
wakeup time t0 + 5m (the next multiple of 5 after the elapsed span), the
handle is still registered, and it has been sent exactly the snapshots
of times t0, t0 + 5, ..., t0 + 5(m-1). -/
def C6Inv (h t0 m k : Nat) (s : Sys) : Prop :=
  s.time = t0 + k ∧ h < s.nextH ∧
  (∃ v ∈ s.viewers, v.handle = h ∧ v.next = t0 + 5 * m) ∧
  k ≤ 5 * m ∧ 5 * m < k + 5 ∧
  h ∈ s.connected_websockets ∧
  (∀ t, sentAt s t h = true ↔ ∃ j, t = t0 + 5 * j ∧ j < m)


/-! Lemma layer: trace induction and preservation of the invariant. -/

theorem run_append (l₁ l₂ : List Op) :
    run (l₁ ++ l₂) = List.foldl step (run l₁) l₂ := by
  simp [run, List.foldl_append]

theorem foldl_ind (P : Sys → Prop)
    (hs : ∀ s op, P s → P (step s op)) :
    ∀ (l : List Op) (s : Sys), P s → P (List.foldl step s l) := by
  intro l
  induction l with
  | nil => intro s h; exact h
  | cons op l ih => intro s h; exact ih (step s op) (hs s op h)

theorem run_ind (P : Sys → Prop) (h0 : P initState)
    (hs : ∀ s op, P s → P (step s op)) (ops : List Op) : P (run ops) :=
  foldl_ind P hs ops initState h0

theorem erase_eq_filter_of_nodup (l : List Nat) (a : Nat) (d : l.Nodup) :
    l.erase a = l.filter (fun x => !(x == a)) := by
  induction l with
  | nil => rfl
  | cons b l ih =>
    rcases List.nodup_cons.mp d with ⟨hb, d'⟩
    by_cases hba : b = a
    · subst hba
      rw [List.erase_cons_head, List.filter_cons]
      simp only [beq_self_eq_true, Bool.not_true, reduceIte]
      exact (List.filter_eq_self.mpr (fun x hx => by
        simp only [Bool.not_eq_true', beq_eq_false_iff_ne]
        rintro rfl
        exact hb hx)).symm
    · rw [List.erase_cons_tail, List.filter_cons]
      · have hba2 : (!(b == a)) = true := by simp [hba]
        rw [if_pos hba2, ih d']
      · simp [hba]

theorem map_handle_filter (vs : List Viewer) (p : Nat → Bool) :
    (vs.filter (fun v => p v.handle)).map Viewer.handle
      = (vs.map Viewer.handle).filter p := by
  induction vs with
  | nil => rfl
  | cons v vs ih =>
    by_cases h : p v.handle = true <;>
      simp [List.filter_cons, h, ih]

theorem map_handle_upd (vs : List Viewer) (t : Nat) :
    ((vs.map (fun v => if v.next == t then { v with next := t + 5 } else v)).map
      Viewer.handle) = vs.map Viewer.handle := by
  induction vs with
  | nil => rfl
  | cons v vs ih =>
    simp only [List.map_cons, ih]
    congr 1
    by_cases h : v.next == t <;> simp [h]

theorem SysInv_initState : SysInv initState := by
  refine ⟨rfl, List.nodup_nil, ?_, ?_, ?_, ?_⟩ <;> simp [initState]

theorem SysInv_connect (s : Sys) (h : SysInv s) : SysInv (connectStep s) := by
  obtain ⟨h1, h2, h3, h4, h5, h6⟩ := h
  have hfresh : ∀ x ∈ s.connected_websockets, x < s.nextH := by
    intro x hx
    exact h3 x ((h5 x).mp hx).1
  refine ⟨?_, ?_, ?_, ?_, ?_, ?_⟩
  · simp [connectStep, h1]
  · simp only [connectStep]
    refine List.Nodup.append h2 (List.nodup_singleton _) ?_
    intro x hx hy
    simp only [List.mem_singleton] at hy
    subst hy
    exact absurd (hfresh _ hx) (lt_irrefl _)
  · intro x hx
    simp only [connectStep, List.mem_cons] at hx
    rcases hx with rfl | hx
    · exact Nat.lt_succ_self _
    · exact Nat.lt_succ_of_lt (h3 x hx)
  · intro x hx
    exact List.mem_cons_of_mem _ (h4 x hx)
  · intro x
    simp only [connectStep, List.mem_append, List.mem_singleton, List.mem_cons,
      List.not_mem_nil, or_false]
    constructor
    · rintro (hx | rfl)
      · rcases (h5 x).mp hx with ⟨ha, hb⟩
        exact ⟨Or.inr ha, hb⟩
      · refine ⟨Or.inl rfl, ?_⟩
        intro hmem
        exact absurd (h3 _ (h4 _ hmem)) (lt_irrefl _)
    · rintro ⟨rfl | ha, hb⟩
      · exact Or.inr rfl
      · exact Or.inl ((h5 x).mpr ⟨ha, hb⟩)
  · intro e he
    exact List.mem_cons_of_mem _ (h6 e he)

theorem SysInv_disconnect (h : Nat) (s : Sys) (hInv : SysInv s) :
    SysInv (disconnectStep h s) := by
  obtain ⟨h1, h2, h3, h4, h5, h6⟩ := hInv
  by_cases hmem : h ∈ s.connected_websockets
  · have hrw : disconnectStep h s =
        { s with
          connected_websockets := s.connected_websockets.erase h
          viewers := s.viewers.filter (fun v => !(v.handle == h))
          removedLog := h :: s.removedLog } := by
      simp [disconnectStep, list_remove, hmem]
    rw [hrw]
    have herase : s.connected_websockets.erase h
        = s.connected_websockets.filter (fun x => !(x == h)) :=
      erase_eq_filter_of_nodup _ _ h2
    refine ⟨?_, ?_, ?_, ?_, ?_, ?_⟩
    · show s.connected_websockets.erase h
        = (s.viewers.filter (fun v => !(v.handle == h))).map Viewer.handle
      rw [herase, h1]
      exact (map_handle_filter s.viewers (fun x => !(x == h))).symm
    · show (s.connected_websockets.erase h).Nodup
      rw [herase]
      exact List.Nodup.filter _ h2
    · exact h3
    · intro x hx
      simp only [List.mem_cons] at hx
      rcases hx with rfl | hx
      · exact ((h5 x).mp hmem).1
      · exact h4 x hx
    · intro x
      show x ∈ s.connected_websockets.erase h ↔ _
      rw [herase]
      simp only [List.mem_filter, Bool.not_eq_true', beq_eq_false_iff_ne,
        List.mem_cons, not_or]
      constructor
      · rintro ⟨hx, hxh⟩
        rcases (h5 x).mp hx with ⟨ha, hb⟩
        exact ⟨ha, hxh, hb⟩
      · rintro ⟨ha, hxh, hb⟩
        exact ⟨(h5 x).mpr ⟨ha, hb⟩, hxh⟩
    · exact h6
  · have hrw : disconnectStep h s = s := by
      simp [disconnectStep, list_remove, hmem]
    rw [hrw]
    exact ⟨h1, h2, h3, h4, h5, h6⟩

theorem mem_failedOf (fail : Nat → Bool) (s : Sys) (x : Nat) :
    x ∈ failedOf fail s ↔
      ∃ v, v ∈ s.viewers ∧ v.next = s.time ∧ fail v.handle = true ∧ v.handle = x := by
  simp only [failedOf, dueOf, List.mem_map, List.mem_filter, beq_iff_eq]
  constructor
  · rintro ⟨v, ⟨⟨hv, hd⟩, hf⟩, rfl⟩
    exact ⟨v, hv, hd, hf, rfl⟩
  · rintro ⟨v, hv, hd, hf, rfl⟩
    exact ⟨v, ⟨⟨hv, hd⟩, hf⟩, rfl⟩

theorem SysInv_advance (fail : Nat → Bool) (s : Sys) (hInv : SysInv s) :
    SysInv (advanceStep fail s) := by
  obtain ⟨h1, h2, h3, h4, h5, h6⟩ := hInv
  have hfailedreg : ∀ x ∈ failedOf fail s, x ∈ s.connected_websockets := by
    intro x hx
    obtain ⟨v, hv, _, _, rfl⟩ := (mem_failedOf fail s x).mp hx
    rw [h1]
    exact List.mem_map_of_mem _ hv
  refine ⟨?_, ?_, ?_, ?_, ?_, ?_⟩
  · show (advanceStep fail s).connected_websockets
      = (advanceStep fail s).viewers.map Viewer.handle
    simp only [advanceStep]
    rw [map_handle_upd, h1]
    exact (map_handle_filter s.viewers
      (fun x => !(decide (x ∈ failedOf fail s)))).symm
  · exact List.Nodup.filter _ h2
  · exact h3
  · intro x hx
    simp only [advanceStep, List.mem_append] at hx
    rcases hx with hx | hx
    · exact ((h5 x).mp (hfailedreg x hx)).1
    · exact h4 x hx
  · intro x
    show x ∈ List.filter _ s.connected_websockets ↔
      x ∈ s.connectedLog ∧ x ∉ failedOf fail s ++ s.removedLog
    simp only [List.mem_filter, Bool.not_eq_true', decide_eq_false_iff_not,
      List.mem_append, not_or]
    constructor
    · rintro ⟨hx, hxf⟩
      rcases (h5 x).mp hx with ⟨ha, hb⟩
      exact ⟨ha, hxf, hb⟩
    · rintro ⟨ha, hxf, hb⟩
      exact ⟨(h5 x).mpr ⟨ha, hb⟩, hxf⟩
  · intro e he
    simp only [advanceStep, dueOf, List.mem_append, List.mem_map,
      List.mem_filter] at he
    rcases he with ⟨v, ⟨⟨hv, _⟩, _⟩, rfl⟩ | he
    · show v.handle ∈ s.connectedLog
      have hvreg : v.handle ∈ s.connected_websockets := by
        rw [h1]
        exact List.mem_map_of_mem _ hv
      exact ((h5 v.handle).mp hvreg).1
    · exact h6 e he

theorem SysInv_getMetrics (t : Nat) (s : Sys) (h : SysInv s) :
    SysInv ((collect_metrics_op t s).1) := h

theorem SysInv_step (s : Sys) (op : Op) (h : SysInv s) : SysInv (step s op) := by
  cases op with
  | connect => exact SysInv_connect s h
  | disconnect hh => exact SysInv_disconnect hh s h
  | getMetrics => exact SysInv_getMetrics s.time s h
  | advance fail => exact SysInv_advance fail s h

theorem run_SysInv (ops : List Op) : SysInv (run ops) :=
  run_ind SysInv SysInv_initState SysInv_step ops

theorem disconnect_sent (h : Nat) (s : Sys) :
    (disconnectStep h s).sent = s.sent := by
  unfold disconnectStep
  rcases hl : list_remove s.connected_websockets h with _ | r <;> simp [hl]

theorem disconnect_alerts (h : Nat) (s : Sys) :
    (disconnectStep h s).alerts = s.alerts := by
  unfold disconnectStep
  rcases hl : list_remove s.connected_websockets h with _ | r <;> simp [hl]

theorem disconnect_time (h : Nat) (s : Sys) :
    (disconnectStep h s).time = s.time := by
  unfold disconnectStep
  rcases hl : list_remove s.connected_websockets h with _ | r <;> simp [hl]

theorem disconnect_nextH (h : Nat) (s : Sys) :
    (disconnectStep h s).nextH = s.nextH := by
  unfold disconnectStep
  rcases hl : list_remove s.connected_websockets h with _ | r <;> simp [hl]

theorem sent_payload (ops : List Op) :
    ∀ e ∈ (run ops).sent, e.2.2 = snap e.1 := by
  refine run_ind (fun s => ∀ e ∈ s.sent, e.2.2 = snap e.1) ?_ ?_ ops
  · intro e he
    simp [initState] at he
  · intro s op ih
    cases op with
    | connect => exact ih
    | disconnect h =>
      intro e he
      rw [show step s (Op.disconnect h) = disconnectStep h s from rfl,
        disconnect_sent] at he
      exact ih e he
    | getMetrics => exact ih
    | advance fail =>
      intro e he
      rw [show step s (Op.advance fail) = advanceStep fail s from rfl] at he
      simp only [advanceStep, List.mem_append, List.mem_map] at he
      rcases he with ⟨v, _, rfl⟩ | he
      · rfl
      · exact ih e he

theorem run_alerts (ops : List Op) : (run ops).alerts = [] := by
  refine run_ind (fun s => s.alerts = []) rfl ?_ ops
  intro s op ih
  cases op with
  | connect => exact ih
  | disconnect h =>
    rw [show step s (Op.disconnect h) = disconnectStep h s from rfl,
      disconnect_alerts]
    exact ih
  | getMetrics => exact ih
  | advance fail => exact ih

theorem not_mem_failedOf (fail : Nat → Bool) (s : Sys) (h : Nat)
    (hf : fail h = false) : h ∉ failedOf fail s := by
  intro hx
  obtain ⟨v, _, _, hfv, hvh⟩ := (mem_failedOf fail s h).mp hx
  rw [hvh, hf] at hfv
  cases hfv

theorem reg_advance_mem (fail : Nat → Bool) (s : Sys) (h : Nat)
    (hr : h ∈ s.connected_websockets) (hf : fail h = false) :
    h ∈ (advanceStep fail s).connected_websockets := by
  show h ∈ s.connected_websockets.filter _
  rw [List.mem_filter]
  refine ⟨hr, ?_⟩
  simp only [Bool.not_eq_true', decide_eq_false_iff_not]
  exact not_mem_failedOf fail s h hf

theorem reg_advance_not_mem (fail : Nat → Bool) (s : Sys) (v : Viewer)
    (hv : v ∈ s.viewers) (hdue : v.next = s.time) (hf : fail v.handle = true) :
    v.handle ∉ (advanceStep fail s).connected_websockets := by
  intro hmem
  have hfm : v.handle ∈ failedOf fail s :=
    (mem_failedOf fail s v.handle).mpr ⟨v, hv, hdue, hf, rfl⟩
  have hmem' : v.handle ∈ s.connected_websockets.filter
      (fun x => !(decide (x ∈ failedOf fail s))) := hmem
  rw [List.mem_filter] at hmem'
  rcases hmem' with ⟨_, hpred⟩
  simp only [Bool.not_eq_true', decide_eq_false_iff_not] at hpred
  exact hpred hfm

theorem viewer_advance_mem (fail : Nat → Bool) (s : Sys) (v : Viewer)
    (hv : v ∈ s.viewers) (hf : fail v.handle = false) :
    (if v.next == s.time then { v with next := s.time + 5 } else v)
      ∈ (advanceStep fail s).viewers := by
  show _ ∈ (s.viewers.filter _).map _
  apply List.mem_map_of_mem
  rw [List.mem_filter]
  refine ⟨hv, ?_⟩
  simp only [Bool.not_eq_true', decide_eq_false_iff_not]
  exact not_mem_failedOf fail s v.handle hf

theorem sentAt_advance (fail : Nat → Bool) (s : Sys) (t h : Nat) :
    sentAt (advanceStep fail s) t h = true ↔
      ((t = s.time ∧ fail h = false ∧
        ∃ v, v ∈ s.viewers ∧ v.handle = h ∧ v.next = s.time)
       ∨ sentAt s t h = true) := by
  show (List.any (_ ++ s.sent) _) = true ↔ _
  rw [List.any_append]
  simp only [Bool.or_eq_true]
  constructor
  · rintro (hnew | hold)
    · left
      rw [List.any_eq_true] at hnew
      obtain ⟨e, he, hpe⟩ := hnew
      simp only [List.mem_map, List.mem_filter, dueOf, beq_iff_eq,
        Bool.not_eq_true'] at he
      obtain ⟨v, ⟨⟨hv, hd⟩, hf⟩, rfl⟩ := he
      simp only [Bool.and_eq_true, beq_iff_eq] at hpe
      obtain ⟨h1, h2⟩ := hpe
      subst h1
      subst h2
      exact ⟨rfl, hf, v, hv, rfl, hd⟩
    · right
      exact hold
  · rintro (⟨rfl, hf, v, hv, rfl, hd⟩ | hold)
    · left
      rw [List.any_eq_true]
      refine ⟨(s.time, v.handle, snap s.time), ?_, ?_⟩
      · simp only [List.mem_map, List.mem_filter, dueOf, beq_iff_eq,
          Bool.not_eq_true']
        exact ⟨v, ⟨⟨hv, hd⟩, hf⟩, rfl⟩
      · simp
    · right
      exact hold

theorem sentAt_connect (s : Sys) (t h : Nat) :
    sentAt (connectStep s) t h = sentAt s t h := rfl

theorem sentAt_disconnect (hh : Nat) (s : Sys) (t h : Nat) :
    sentAt (disconnectStep hh s) t h = sentAt s t h := by
  unfold sentAt
  rw [disconnect_sent]

theorem C6Inv_connect (h t0 m k : Nat) (s : Sys) (hc : C6Inv h t0 m k s) :
    C6Inv h t0 m k (connectStep s) := by
  obtain ⟨ht, hn, ⟨v, hv, hvh, hvn⟩, hk1, hk2, hr, hs⟩ := hc
  refine ⟨ht, Nat.lt_succ_of_lt hn, ⟨v, ?_, hvh, hvn⟩, hk1, hk2, ?_, ?_⟩
  · show v ∈ s.viewers ++ [⟨s.nextH, s.time⟩]
    exact List.mem_append_left _ hv
  · show h ∈ s.connected_websockets ++ [s.nextH]
    exact List.mem_append_left _ hr
  · intro t
    rw [sentAt_connect]
    exact hs t

theorem C6Inv_disconnect (h t0 m k hd : Nat) (s : Sys) (hne : hd ≠ h)
    (hInv : SysInv s) (hc : C6Inv h t0 m k s) :
    C6Inv h t0 m k (disconnectStep hd s) := by
  obtain ⟨ht, hn, ⟨v, hv, hvh, hvn⟩, hk1, hk2, hr, hs⟩ := hc
  obtain ⟨h1, h2, _, _, _, _⟩ := hInv
  by_cases hmem : hd ∈ s.connected_websockets
  · have hrw : disconnectStep hd s =
        { s with
          connected_websockets := s.connected_websockets.erase hd
          viewers := s.viewers.filter (fun v => !(v.handle == hd))
          removedLog := hd :: s.removedLog } := by
      simp [disconnectStep, list_remove, hmem]
    rw [hrw]
    refine ⟨ht, hn, ⟨v, ?_, hvh, hvn⟩, hk1, hk2, ?_, ?_⟩
    · show v ∈ s.viewers.filter _
      rw [List.mem_filter]
      refine ⟨hv, ?_⟩
      simp only [Bool.not_eq_true', beq_eq_false_iff_ne]
      rw [hvh]
      exact hne.symm
    · show h ∈ s.connected_websockets.erase hd
      rw [erase_eq_filter_of_nodup _ _ h2, List.mem_filter]
      refine ⟨hr, ?_⟩
      simp only [Bool.not_eq_true', beq_eq_false_iff_ne]
      exact hne.symm
    · intro t
      exact hs t
  · have hrw : disconnectStep hd s = s := by
      simp [disconnectStep, list_remove, hmem]
    rw [hrw]
    exact ⟨ht, hn, ⟨v, hv, hvh, hvn⟩, hk1, hk2, hr, hs⟩

theorem C6Inv_advance (h t0 m k : Nat) (fail : Nat → Bool) (s : Sys)
    (hf : fail h = false) (hInv : SysInv s) (hc : C6Inv h t0 m k s) :
    ∃ m', C6Inv h t0 m' (k + 1) (advanceStep fail s) := by
  obtain ⟨ht, hn, ⟨v, hv, hvh, hvn⟩, hk1, hk2, hr, hs⟩ := hc
  obtain ⟨h1, h2, _, _, _, _⟩ := hInv
  have hnodup : (s.viewers.map Viewer.handle).Nodup := h1 ▸ h2
  have huniq : ∀ u ∈ s.viewers, u.handle = h → u = v := by
    intro u hu huh
    exact List.inj_on_of_nodup_map hnodup hu hv (by rw [huh, hvh])
  have hfv : fail v.handle = false := by rw [hvh]; exact hf
  by_cases hdue : 5 * m = k
  · have hvdue : v.next = s.time := by rw [hvn, hdue, ht]
    have hmem := viewer_advance_mem fail s v hv hfv
    rw [if_pos (by simp [hvdue])] at hmem
    refine ⟨m + 1, ?_, hn, ⟨{ v with next := s.time + 5 }, hmem, hvh, ?_⟩,
      by omega, by omega, reg_advance_mem fail s h hr hf, ?_⟩
    · show s.time + 1 = t0 + (k + 1)
      omega
    · show s.time + 5 = t0 + 5 * (m + 1)
      omega
    · intro t
      rw [sentAt_advance]
      constructor
      · rintro (⟨rfl, _, _⟩ | hold)
        · exact ⟨m, by omega, by omega⟩
        · obtain ⟨j, rfl, hj⟩ := (hs t).mp hold
          exact ⟨j, rfl, by omega⟩
      · rintro ⟨j, rfl, hj⟩
        rcases Nat.lt_succ_iff_lt_or_eq.mp hj with hj | rfl
        · right
          exact (hs _).mpr ⟨j, rfl, hj⟩
        · left
          exact ⟨by omega, hf, v, hv, hvh, hvdue⟩
  · have hklt : k < 5 * m := Nat.lt_of_le_of_ne hk1 (Ne.symm hdue)
    have hvnotdue : v.next ≠ s.time := by
      rw [hvn, ht]
      omega
    have hmem := viewer_advance_mem fail s v hv hfv
    rw [if_neg (by simp [hvnotdue])] at hmem
    refine ⟨m, ?_, hn, ⟨v, hmem, hvh, hvn⟩, by omega, by omega,
      reg_advance_mem fail s h hr hf, ?_⟩
    · show s.time + 1 = t0 + (k + 1)
      omega
    · intro t
      rw [sentAt_advance]
      constructor
      · rintro (⟨rfl, _, u, hu, huh, hud⟩ | hold)
        · have := huniq u hu huh
          subst this
          exact absurd hud hvnotdue
        · exact (hs t).mp hold
      · rintro ⟨j, rfl, hj⟩
        right
        exact (hs _).mpr ⟨j, rfl, hj⟩

theorem C6_fold (more : List Op) :
    ∀ (s : Sys) (h t0 m k : Nat), SysInv s → C6Inv h t0 m k s →
    (∀ f, Op.advance f ∈ more → f h = false) →
    Op.disconnect h ∉ more →
    SysInv (List.foldl step s more) ∧
      ∃ m', C6Inv h t0 m' (k + advCount more) (List.foldl step s more) := by
  induction more with
  | nil =>
    intro s h t0 m k hInv hc _ _
    refine ⟨hInv, m, ?_⟩
    have : advCount ([] : List Op) = 0 := rfl
    rw [this, Nat.add_zero]
    exact hc
  | cons op rest ih =>
    intro s h t0 m k hInv hc hadv hdis
    have hadv' : ∀ f, Op.advance f ∈ rest → f h = false :=
      fun f hf => hadv f (List.mem_cons_of_mem _ hf)
    have hdis' : Op.disconnect h ∉ rest :=
      fun hf => hdis (List.mem_cons_of_mem _ hf)
    cases op with
    | connect =>
      have hres := ih (connectStep s) h t0 m k (SysInv_connect s hInv)
        (C6Inv_connect h t0 m k s hc) hadv' hdis'
      rcases hres with ⟨hI, m', hc'⟩
      refine ⟨hI, m', ?_⟩
      have hcnt : advCount (Op.connect :: rest) = advCount rest := by
        simp [advCount, List.countP_cons]
      rw [hcnt]
      exact hc'
    | disconnect hd =>
      have hne : hd ≠ h := by
        rintro rfl
        exact hdis (List.mem_cons_self _ _)
      have hres := ih (disconnectStep hd s) h t0 m k
        (SysInv_disconnect hd s hInv)
        (C6Inv_disconnect h t0 m k hd s hne hInv hc) hadv' hdis'
      rcases hres with ⟨hI, m', hc'⟩
      refine ⟨hI, m', ?_⟩
      have hcnt : advCount (Op.disconnect hd :: rest) = advCount rest := by
        simp [advCount, List.countP_cons]
      rw [hcnt]
      exact hc'
    | getMetrics =>
      have hres := ih ((collect_metrics_op s.time s).1) h t0 m k
        (SysInv_getMetrics s.time s hInv) hc hadv' hdis'
      rcases hres with ⟨hI, m', hc'⟩
      refine ⟨hI, m', ?_⟩
      have hcnt : advCount (Op.getMetrics :: rest) = advCount rest := by
        simp [advCount, List.countP_cons]
      rw [hcnt]
      exact hc'
    | advance f =>
      have hfh : f h = false := hadv f (List.mem_cons_self _ _)
      obtain ⟨m1, hc1⟩ := C6Inv_advance h t0 m k f s hfh hInv hc
      have hres := ih (advanceStep f s) h t0 m1 (k + 1)
        (SysInv_advance f s hInv) hc1 hadv' hdis'
      rcases hres with ⟨hI, m', hc'⟩
      refine ⟨hI, m', ?_⟩
      have hcnt : k + advCount (Op.advance f :: rest) = (k + 1) + advCount rest := by
        simp [advCount, List.countP_cons]
        omega
      rw [hcnt]
      exact hc'

/-! Claim theorems. -/

/-- C1: collect_metrics, which serves GET /metrics, returns at every call
time a payload containing all five top-level categories infrastructure,
development, ai_assistance, neural_transport and city_integration, each
mapped to a non-empty mapping of metric names to values; the payload
depends only on the call instant, not on the dashboard state, so it is
independent of which (if any) viewers are connected. -/
theorem C1_collect_metrics_categories (t : ℚ) (s : Sys) :
    (collect_metrics_op s.time s).2 = collect_metrics (s.time : ℚ) ∧
    categoryNonempty (collect_metrics t) "infrastructure" = true ∧
    categoryNonempty (collect_metrics t) "development" = true ∧
    categoryNonempty (collect_metrics t) "ai_assistance" = true ∧
    categoryNonempty (collect_metrics t) "neural_transport" = true ∧
    categoryNonempty (collect_metrics t) "city_integration" = true :=
  ⟨rfl, rfl, rfl, rfl, rfl, rfl⟩

/-- C7: the snapshot computation is a pure function of the call instant:
two calls at the same instant, from any two dashboard states, return
equal payloads, and the two-level category/metric key structure of the
payload is the same at every instant. -/
theorem C7_collect_metrics_pure (s₁ s₂ : Sys) (t₁ t₂ : ℚ)
    (hsame : s₁.time = s₂.time) :
    (collect_metrics_op s₁.time s₁).2 = (collect_metrics_op s₂.time s₂).2 ∧
    keyShape (collect_metrics t₁) = keyShape (collect_metrics t₂) := by
  constructor
  · rw [hsame]
    rfl
  · rfl

/-- C7 witness: two states with equal clocks, two different instants. -/
theorem C7_collect_metrics_pure_witness :
    initState.time = (connectStep initState).time ∧
    ((collect_metrics_op initState.time initState).2
        = (collect_metrics_op (connectStep initState).time (connectStep initState)).2 ∧
      keyShape (collect_metrics 0) = keyShape (collect_metrics 1)) :=
  ⟨rfl, C7_collect_metrics_pure initState (connectStep initState) 0 1 rfl⟩

/-- C8: in every reachable dashboard state the stored alert list is empty
(no operation ever appends to it), so every call of GET /alerts returns a
payload whose alert list is empty. -/
theorem C8_alerts_empty (ops : List Op) :
    (run ops).alerts = [] ∧
    get_alerts (run ops) = J.obj [("alerts", J.arr [])] := by
  have h := run_alerts ops
  refine ⟨h, ?_⟩
  rw [get_alerts, h]

/-- C9: the gas analysis of the copilot is a constant function: it
returns the same fixed mapping for every contract-code input. -/
theorem C9_gas_analysis_constant (c₁ c₂ : String) :
    gas_analysis c₁ = gas_analysis c₂ := rfl

/-- C10: every call of collect_metrics stores exactly the snapshot it
returns in the metrics cache and leaves all other dashboard state
unchanged: the alert list, the viewer registry, the viewer tasks, the
delivery log, the clock and the handle counter. -/
theorem C10_collect_metrics_frame (t : Nat) (s : Sys) :
    ((collect_metrics_op t s).1).metrics = (collect_metrics_op t s).2 ∧
    ((collect_metrics_op t s).1).alerts = s.alerts ∧
    ((collect_metrics_op t s).1).connected_websockets = s.connected_websockets ∧
    ((collect_metrics_op t s).1).viewers = s.viewers ∧
    ((collect_metrics_op t s).1).sent = s.sent ∧
    ((collect_metrics_op t s).1).time = s.time ∧
    ((collect_metrics_op t s).1).nextH = s.nextH :=
  ⟨rfl, rfl, rfl, rfl, rfl, rfl, rfl⟩

/-- C4: after every finite sequence of connect, disconnect, pull and tick
events the registry holds no duplicate handles and contains exactly the
handles that were connected and not yet removed by a disconnect or by
eviction after a delivery failure. -/
theorem C4_registry_exact (ops : List Op) :
    (run ops).connected_websockets.Nodup ∧
    ∀ h, h ∈ (run ops).connected_websockets ↔
      (h ∈ (run ops).connectedLog ∧ h ∉ (run ops).removedLog) := by
  obtain ⟨_, h2, _, _, h5, _⟩ := run_SysInv ops
  exact ⟨h2, h5⟩

/-- C3 counterexample: in the initial state no handle is registered, and
removing the absent handle 0 from the registry — the operation the
finally clause of the websocket handler performs — raises ValueError
(list_remove returns none) instead of returning normally, so disconnect
of an absent handle is not a non-raising no-op. -/
theorem C3_disconnect_absent_cex :
    0 ∉ initState.connected_websockets ∧
    list_remove initState.connected_websockets 0 = none :=
  ⟨by decide, rfl⟩

/-- C3 amended: disconnect of a handle that is not in the registry raises
ValueError (Python list.remove); the registry and the rest of the
dashboard state are left unchanged by the failed call, but the operation
is an error, not an idempotent no-op. -/
theorem C3_disconnect_absent_raises (s : Sys) (h : Nat)
    (hab : h ∉ s.connected_websockets) :
    list_remove s.connected_websockets h = none ∧ disconnectStep h s = s := by
  constructor
  · simp [list_remove, hab]
  · simp [disconnectStep, list_remove, hab]

/-- C3 witness: the absent handle 5 in the initial state. -/
theorem C3_disconnect_absent_raises_witness :
    (5 ∉ initState.connected_websockets) ∧
    (list_remove initState.connected_websockets 5 = none ∧
      disconnectStep 5 initState = initState) :=
  ⟨by decide, C3_disconnect_absent_raises initState 5 (by decide)⟩

/-- C2 counterexample: viewers 0 and 1 are both registered at the start
of the time unit at time 1, yet during that tick only viewer 1 — whose
own per-connection loop is due — is sent a payload, and viewer 0 is sent
nothing: the code has no broadcaster tick that delivers one snapshot to
every connected viewer. -/
theorem C2_tick_broadcast_cex :
    0 ∈ (run [Op.connect, Op.advance (fun _ => false),
          Op.connect]).connected_websockets ∧
    1 ∈ (run [Op.connect, Op.advance (fun _ => false),
          Op.connect]).connected_websockets ∧
    (run [Op.connect, Op.advance (fun _ => false), Op.connect]).time = 1 ∧
    sentAt (run [Op.connect, Op.advance (fun _ => false), Op.connect,
      Op.advance (fun _ => false)]) 1 1 = true ∧
    sentAt (run [Op.connect, Op.advance (fun _ => false), Op.connect,
      Op.advance (fun _ => false)]) 1 0 = false :=
  ⟨by decide, by decide, rfl, by decide, by decide⟩

/-- C2 amended: each viewer is served by its own per-connection loop,
which within one of its ticks sends a payload only to that viewer; any
two deliveries made in the same time unit carry equal payloads, because
every delivered payload is the snapshot of the delivery instant. In
particular viewers connected at the same instant receive equal payloads
at every shared tick. -/
theorem C2_same_tick_equal_payload (ops : List Op) (t h₁ h₂ : Nat)
    (p₁ p₂ : J)
    (hm₁ : (t, h₁, p₁) ∈ (run ops).sent)
    (hm₂ : (t, h₂, p₂) ∈ (run ops).sent) :
    p₁ = p₂ := by
  have e₁ : p₁ = snap t := sent_payload ops (t, h₁, p₁) hm₁
  have e₂ : p₂ = snap t := sent_payload ops (t, h₂, p₂) hm₂
  rw [e₁, e₂]

/-- C2 amended witness: two viewers connected at the same instant are
both sent the snapshot of time 0 on their shared first tick. -/
theorem C2_same_tick_equal_payload_witness :
    ((0, 0, snap 0) ∈ (run [Op.connect, Op.connect,
        Op.advance (fun _ => false)]).sent ∧
      (0, 1, snap 0) ∈ (run [Op.connect, Op.connect,
        Op.advance (fun _ => false)]).sent) ∧
    snap 0 = snap 0 := by
  have hsent : (run [Op.connect, Op.connect,
      Op.advance (fun _ => false)]).sent
      = [(0, 0, snap 0), (0, 1, snap 0)] := rfl
  have hm₁ : (0, 0, snap 0) ∈ (run [Op.connect, Op.connect,
      Op.advance (fun _ => false)]).sent := by
    rw [hsent]
    exact List.Mem.head _
  have hm₂ : (0, 1, snap 0) ∈ (run [Op.connect, Op.connect,
      Op.advance (fun _ => false)]).sent := by
    rw [hsent]
    exact List.Mem.tail _ (List.Mem.head _)
  exact ⟨⟨hm₁, hm₂⟩, C2_same_tick_equal_payload
    [Op.connect, Op.connect, Op.advance (fun _ => false)]
    0 0 1 (snap 0) (snap 0) hm₁ hm₂⟩

/-- C5: failure isolation. If in the tick at the current time a due
registered viewer v fails delivery while a due registered viewer w does
not, then after that tick v is out of the registry before the next tick,
w is still registered, w was sent the snapshot of the tick, and the loop
of w survives: its task is alive and scheduled five units later, so
subsequent ticks still attempt delivery to it. -/
theorem C5_failure_isolation (ops : List Op) (fail : Nat → Bool)
    (v w : Viewer)
    (hv : v ∈ (run ops).viewers) (hw : w ∈ (run ops).viewers)
    (hvd : v.next = (run ops).time) (hwd : w.next = (run ops).time)
    (hvf : fail v.handle = true) (hwf : fail w.handle = false) :
    v.handle ∉ (run (ops ++ [Op.advance fail])).connected_websockets ∧
    w.handle ∈ (run (ops ++ [Op.advance fail])).connected_websockets ∧
    sentAt (run (ops ++ [Op.advance fail])) (run ops).time w.handle = true ∧
    ({ w with next := (run ops).time + 5 }
      ∈ (run (ops ++ [Op.advance fail])).viewers) := by
  have hrun : run (ops ++ [Op.advance fail]) = advanceStep fail (run ops) := by
    rw [run_append]
    rfl
  obtain ⟨h1, _, _, _, _, _⟩ := run_SysInv ops
  have hwreg : w.handle ∈ (run ops).connected_websockets := by
    rw [h1]
    exact List.mem_map_of_mem _ hw
  refine ⟨?_, ?_, ?_, ?_⟩
  · rw [hrun]
    exact reg_advance_not_mem fail (run ops) v hv hvd hvf
  · rw [hrun]
    exact reg_advance_mem fail (run ops) w.handle hwreg hwf
  · rw [hrun, sentAt_advance]
    left
    exact ⟨rfl, hwf, w, hw, rfl, hwd⟩
  · rw [hrun]
    have hmem := viewer_advance_mem fail (run ops) w hw hwf
    rw [if_pos (by simp [hwd])] at hmem
    exact hmem

/-- C5 witness: two viewers connect at time 0; on the first tick the
transport rejects handle 0 and accepts handle 1. -/
theorem C5_failure_isolation_witness :
    ((⟨0, 0⟩ : Viewer) ∈ (run [Op.connect, Op.connect]).viewers ∧
      (⟨1, 0⟩ : Viewer) ∈ (run [Op.connect, Op.connect]).viewers ∧
      (fun h => h == 0) 0 = true ∧ (fun h => h == 0) 1 = false) ∧
    (0 ∉ (run ([Op.connect, Op.connect]
        ++ [Op.advance (fun h => h == 0)])).connected_websockets ∧
      1 ∈ (run ([Op.connect, Op.connect]
        ++ [Op.advance (fun h => h == 0)])).connected_websockets ∧
      sentAt (run ([Op.connect, Op.connect]
        ++ [Op.advance (fun h => h == 0)]))
        (run [Op.connect, Op.connect]).time 1 = true ∧
      ({ handle := 1, next := (run [Op.connect, Op.connect]).time + 5 }
        ∈ (run ([Op.connect, Op.connect]
          ++ [Op.advance (fun h => h == 0)])).viewers)) :=
  ⟨⟨by decide, by decide, rfl, rfl⟩,
    C5_failure_isolation [Op.connect, Op.connect] (fun h => h == 0)
      ⟨0, 0⟩ ⟨1, 0⟩ (by decide) (by decide) rfl rfl rfl rfl⟩

/-- C6: the streaming endpoint registers a viewer on connect and then its
per-connection loop pushes a snapshot to that viewer exactly every 5 time
units, starting immediately, for as long as the viewer neither
disconnects nor fails delivery — whatever other connect, disconnect, pull
or tick events occur around it; the loop never terminates on its own: the
viewer is still registered after any such event sequence. -/
theorem C6_push_every_five (ops more : List Op)
    (hadv : ∀ f, Op.advance f ∈ more → f (run ops).nextH = false)
    (hdis : Op.disconnect (run ops).nextH ∉ more) :
    (run ops).nextH
        ∈ (run (ops ++ Op.connect :: more)).connected_websockets ∧
    ∀ t, sentAt (run (ops ++ Op.connect :: more)) t (run ops).nextH = true ↔
      ∃ j, t = (run ops).time + 5 * j ∧ 5 * j < advCount more := by
  have hInv0 := run_SysInv ops
  have hImid : SysInv (connectStep (run ops)) := SysInv_connect (run ops) hInv0
  have hcmid : C6Inv (run ops).nextH (run ops).time 0 0 (connectStep (run ops)) := by
    obtain ⟨_, _, h3, _, _, h6⟩ := hInv0
    refine ⟨(Nat.add_zero _).symm, Nat.lt_succ_self _,
      ⟨⟨(run ops).nextH, (run ops).time⟩, ?_, rfl, by simp⟩,
      Nat.le_refl 0, by omega, ?_, ?_⟩
    · show _ ∈ (run ops).viewers ++ [(⟨(run ops).nextH, (run ops).time⟩ : Viewer)]
      exact List.mem_append_right _ (List.Mem.head _)
    · show (run ops).nextH ∈ (run ops).connected_websockets ++ [(run ops).nextH]
      exact List.mem_append_right _ (List.Mem.head _)
    · intro t
      rw [sentAt_connect]
      constructor
      · intro htrue
        rw [sentAt, List.any_eq_true] at htrue
        obtain ⟨e, he, hpe⟩ := htrue
        simp only [Bool.and_eq_true, beq_iff_eq] at hpe
        have := h3 _ (h6 e he)
        rw [hpe.2] at this
        exact absurd this (lt_irrefl _)
      · rintro ⟨j, _, hj⟩
        exact absurd hj (Nat.not_lt_zero j)
  have hfold := C6_fold more (connectStep (run ops)) (run ops).nextH
    (run ops).time 0 0 hImid hcmid hadv hdis
  rcases hfold with ⟨_, m', hc'⟩
  obtain ⟨_, _, _, hk1, hk2, hreg, hsend⟩ := hc'
  have hrun : run (ops ++ Op.connect :: more)
      = List.foldl step (connectStep (run ops)) more := by
    rw [run_append]
    rfl
  rw [hrun]
  rw [Nat.zero_add] at hk1 hk2
  refine ⟨hreg, ?_⟩
  intro t
  rw [hsend t]
  constructor
  · rintro ⟨j, rfl, hj⟩
    exact ⟨j, rfl, by omega⟩
  · rintro ⟨j, rfl, hj⟩
    exact ⟨j, rfl, by omega⟩

/-- C6 witness: a viewer connects into the empty system and six
failure-free ticks pass; it is still registered and was sent snapshots
exactly at times 0 and 5. -/
theorem C6_push_every_five_witness :
    ((∀ f, Op.advance f ∈ ([Op.advance (fun _ => false),
          Op.advance (fun _ => false), Op.advance (fun _ => false),
          Op.advance (fun _ => false), Op.advance (fun _ => false),
          Op.advance (fun _ => false)] : List Op) →
        f (run ([] : List Op)).nextH = false) ∧
      Op.disconnect (run ([] : List Op)).nextH
        ∉ ([Op.advance (fun _ => false), Op.advance (fun _ => false),
            Op.advance (fun _ => false), Op.advance (fun _ => false),
            Op.advance (fun _ => false), Op.advance (fun _ => false)] : List Op)) ∧
    ((run ([] : List Op)).nextH
        ∈ (run (([] : List Op) ++ Op.connect ::
            [Op.advance (fun _ => false), Op.advance (fun _ => false),
             Op.advance (fun _ => false), Op.advance (fun _ => false),
             Op.advance (fun _ => false),
             Op.advance (fun _ => false)])).connected_websockets ∧
      ∀ t, sentAt (run (([] : List Op) ++ Op.connect ::
            [Op.advance (fun _ => false), Op.advance (fun _ => false),
             Op.advance (fun _ => false), Op.advance (fun _ => false),
             Op.advance (fun _ => false), Op.advance (fun _ => false)])) t
          (run ([] : List Op)).nextH = true ↔
        ∃ j, t = (run ([] : List Op)).time + 5 * j ∧
          5 * j < advCount [Op.advance (fun _ => false),
            Op.advance (fun _ => false), Op.advance (fun _ => false),
            Op.advance (fun _ => false), Op.advance (fun _ => false),
            Op.advance (fun _ => false)]) := by
  have h1 : ∀ f, Op.advance f ∈ ([Op.advance (fun _ => false),
      Op.advance (fun _ => false), Op.advance (fun _ => false),
      Op.advance (fun _ => false), Op.advance (fun _ => false),
      Op.advance (fun _ => false)] : List Op) →
      f (run ([] : List Op)).nextH = false := by
    intro f hf
    simp only [List.mem_cons, List.not_mem_nil, or_false] at hf
    rcases hf with h | h | h | h | h | h <;> (injection h with h'; rw [h'])
  have h2 : Op.disconnect (run ([] : List Op)).nextH
      ∉ ([Op.advance (fun _ => false), Op.advance (fun _ => false),
          Op.advance (fun _ => false), Op.advance (fun _ => false),
          Op.advance (fun _ => false), Op.advance (fun _ => false)] : List Op) := by
    intro hmem
    simp only [List.mem_cons, List.not_mem_nil, or_false] at hmem
    rcases hmem with h | h | h | h | h | h <;> exact Op.noConfusion h
  exact ⟨⟨h1, h2⟩, C6_push_every_five [] _ h1 h2⟩
